import Mathlib

/-!
Verification model of `src/docker_orchestrator.py` (dawn-cli).

The Python module is shallowly embedded as follows.

* POSIX paths are component lists (`PathC`).  `pathlib`'s `/` operator,
  `Path.resolve()` (in a symlink-free filesystem, resolution is the lexical
  normalization of `.`/`..`/empty segments) and `str(Path)` are modelled by
  `resolveUnder` and `pathChars`.
* The host-mounted workspace is a finite map: `FS` lists the directory paths
  and the `(path, content)` pairs of regular files.
* The docker runtime is `DockerSt`: a list of containers (name, running flag,
  dev-server flag, published host port, log text) together with a log of every
  `exec_run` call issued, newest first.  The outcomes of the commands the
  orchestrator executes inside the container (external collaborators) are
  modelled by `execResult`: `pgrep -f 'vite'` exits 0 exactly when the
  dev-server flag is set, and the bootstrap / install commands exit 0.
* Python strings are Lean `String`s; `str.count` / `str.replace(. , ., 1)` /
  `str.rstrip` / `str.split` / `readlines` are re-implemented character-wise
  (`countOcc`, `replaceOne`, `rstripAll`, `splitLim`, `readlines`).
* Each public method of `DockerOrchestrator` becomes a function threading the
  explicit state; the `@require_container` decorator's check and its
  exception-to-payload conversion are transcribed into each method's head.
  `delete_item` carries no decorator in the source, so with no container its
  body's attribute access on `None` raises (`Res.raised`), faithfully to
  Python semantics.
-/

/-- Absolute POSIX path, as its list of components (`[]` is the root `/`). -/
abbrev PathC := List String

/-- Split a Python string on the slash character (`"a/b".split("/")`),
keeping empty pieces, character by character. -/
def splitSegAux : List Char → List Char → List String
  | [], acc => [String.mk acc.reverse]
  | c :: rest, acc =>
      if c = '/' then String.mk acc.reverse :: splitSegAux rest []
      else splitSegAux rest (c :: acc)

/-- The segments of a caller-supplied path string. -/
def splitPath (s : String) : List String := splitSegAux s.data []

/-- Whether a Python path string is absolute (starts with a slash). -/
def isAbsStr (s : String) : Bool :=
  match s.data with
  | c :: _ => c = '/'
  | [] => false

/-- Lexical normalization of path segments against an accumulator:
empty and `.` segments are dropped, `..` removes the last component
(staying at the root when there is none).  This is `Path.resolve()` in a
filesystem without symlinks. -/
def normSegs (acc : PathC) : List String → PathC
  | [] => acc
  | seg :: rest =>
      if seg = "" || seg = "." then normSegs acc rest
      else if seg = ".." then normSegs acc.dropLast rest
      else normSegs (acc ++ [seg]) rest

/-- `(base / p).resolve()`: pathlib discards `base` when `p` is absolute. -/
def resolveUnder (base : PathC) (p : String) : PathC :=
  if isAbsStr p then normSegs [] (splitPath p) else normSegs base (splitPath p)

/-- The characters of `str(Path)` for an absolute path: `/` for the root,
otherwise each component preceded by a slash. -/
def pathChars (ps : PathC) : List Char :=
  if ps.isEmpty then ['/'] else (ps.map (fun s => '/' :: s.data)).flatten

/-- Python `str.startswith`, on the underlying character lists. -/
def pyStartsWith (s pre : String) : Bool := pre.data.isPrefixOf s.data

/-- Component-wise containment test: `a` is an ancestor-or-self of `b`. -/
def segPre (a b : PathC) : Bool := List.isPrefixOf a b

/-- `DockerOrchestrator._get_safe_path` (lines 124-129): resolve the
caller-supplied string against `project_dir` and raise `PermissionError`
unless `str(target).startswith(str(project_dir.resolve()))`; `project_dir`
is taken already canonical. -/
def get_safe_path (proj : PathC) (p : String) : Except String PathC :=
  let target := resolveUnder proj p
  if (pathChars proj).isPrefixOf (pathChars target) then .ok target
  else .error "Access Denied: Path outside workspace"

/-- The host workspace: which absolute paths are directories, and the
contents of each regular file. -/
structure FS where
  dirs : List PathC
  files : List (PathC × String)
deriving Repr, DecidableEq

def isDir (fs : FS) (p : PathC) : Bool := fs.dirs.contains p

def lookupFile (fs : FS) (p : PathC) : Option String := fs.files.lookup p

def isFile (fs : FS) (p : PathC) : Bool := (lookupFile fs p).isSome

def existsPath (fs : FS) (p : PathC) : Bool := isDir fs p || isFile fs p

/-- Every path listed in the filesystem, directories then file keys. -/
def entriesOf (fs : FS) : List PathC := fs.dirs ++ fs.files.map (fun kv => kv.1)

/-- The strict ancestors of a path, root included. -/
def properPrefixes (p : PathC) : List PathC :=
  (List.range p.length).map (fun n => p.take n)

/-- `Path.mkdir(parents=True, exist_ok=True)`: creates the missing
directories of the chain; raises when the path or one of its ancestors
already exists as a regular file. -/
def mkdirParents (fs : FS) (p : PathC) : Except String FS :=
  if (properPrefixes p ++ [p]).any (fun a => isFile fs a) then .error "FileExistsError"
  else .ok { fs with dirs := ((properPrefixes p ++ [p]).filter (fun a => !(isDir fs a))) ++ fs.dirs }

/-- The well-formedness a real on-disk tree always has: every strict
ancestor of a listed path is a listed directory, and no path is both a
file and a directory. -/
def wf (fs : FS) : Bool :=
  (entriesOf fs).all (fun p => (List.range p.length).all (fun n => isDir fs (p.take n)))
    && fs.files.all (fun kv => !(isDir fs kv.1))

/-- One row of `list_files`' output. -/
structure FileEntry where
  name : String
  type : String
  path : String
deriving Repr, DecidableEq

/-- One row of `search_content`'s output. -/
structure SearchMatch where
  file : String
  line : String
  content : String
deriving Repr, DecidableEq

/-- The payload a public method hands back to its caller: the success and
error dictionaries of the source, plus `raised` for an exception that
escapes unhandled (no decorator to catch it). -/
inductive Res where
  | ok (message : String)
  | content (s : String)
  | entries (l : List FileEntry)
  | matches (l : List SearchMatch)
  | ready (name url : String)
  | cmd (exitCode : Nat) (output : String)
  | logsOut (s : String)
  | err (message : String)
  | raised (message : String)
deriving Repr, DecidableEq

/-- The `{"error": "No container running..."}` payload produced by the
`require_container` decorator (lines 13-23). -/
def noContainerErr : Res := .err "No container running. Start the container first"

/-- The whitespace characters `str.rstrip()` / `str.strip()` remove
(the ASCII ones; the sources never hold other whitespace). -/
def pyIsSpaceChar (c : Char) : Bool :=
  c = ' ' || c = '\t' || c = '\n' || c = '\r' || c = '\x0b' || c = '\x0c'

/-- Python `str.rstrip()`. -/
def rstripAll (s : List Char) : List Char :=
  (s.reverse.dropWhile pyIsSpaceChar).reverse

/-- Python `str.strip()`. -/
def pyStrip (s : List Char) : List Char :=
  rstripAll (s.dropWhile pyIsSpaceChar)

/-- Greedy left-to-right scan of Python `str.count` for a nonempty
pattern: a counter of characters still to skip after a match keeps the
occurrences non-overlapping. -/
def countAux (pat : List Char) : List Char → Nat → Nat
  | [], _ => 0
  | c :: rest, 0 =>
      if pat.isPrefixOf (c :: rest) then 1 + countAux pat rest (pat.length - 1)
      else countAux pat rest 0
  | _ :: rest, k + 1 => countAux pat rest k

/-- Python `content.count(pat)`: non-overlapping occurrences, `len+1`
for the empty pattern. -/
def countOcc (pat s : List Char) : Nat :=
  match pat with
  | [] => s.length + 1
  | _ => countAux pat s 0

/-- Replace the first occurrence of a nonempty pattern. -/
def replaceAux (pat rep : List Char) : List Char → List Char
  | [] => []
  | c :: rest =>
      if pat.isPrefixOf (c :: rest) then rep ++ (c :: rest).drop pat.length
      else c :: replaceAux pat rep rest

/-- Python `content.replace(pat, rep, 1)` (for the empty pattern Python
inserts the replacement in front). -/
def replaceOne (pat rep s : List Char) : List Char :=
  match pat with
  | [] => rep ++ s
  | _ => replaceAux pat rep s

/-- `file.readlines()`: split keeping the newline terminators; a last
unterminated piece is kept, an empty file gives no lines. -/
def readlinesAux : List Char → List Char → List (List Char)
  | [], acc => if acc.isEmpty then [] else [acc.reverse]
  | c :: rest, acc =>
      if c = '\n' then (acc.reverse ++ ['\n']) :: readlinesAux rest []
      else readlinesAux rest (c :: acc)

def readlines (s : List Char) : List (List Char) := readlinesAux s []

/-- Escape literal pipes, as `line.rstrip().replace("|", "\\|")` does. -/
def escPipes : List Char → List Char
  | [] => []
  | c :: rest => if c = '|' then '\\' :: '|' :: escPipes rest else c :: escPipes rest

/-- Break a character list at the first occurrence of a separator. -/
def breakAt (sep : Char) : List Char → Option (List Char × List Char)
  | [] => none
  | c :: rest =>
      if c = sep then some ([], rest)
      else
        match breakAt sep rest with
        | none => none
        | some (a, b) => some (c :: a, b)

/-- Python `str.split(sep, n)`: at most `n` splits. -/
def splitLim (sep : Char) : Nat → List Char → List (List Char)
  | 0, s => [s]
  | n + 1, s =>
      match breakAt sep s with
      | none => [s]
      | some (a, b) => a :: splitLim sep n b

/-- Python `str.split(sep)` without limit. -/
def splitAll (sep : Char) (s : List Char) : List (List Char) := splitLim sep s.length s

/-- One container of the runtime: its docker name, whether it is running,
whether the vite dev-server process is alive inside it, the host port
published for `5173/tcp`, and its aggregate log text. -/
structure ContainerSt where
  name : String
  running : Bool
  viteRunning : Bool
  hostPort : Nat
  logsText : String
deriving Repr, DecidableEq

/-- The docker runtime plus the trace of `exec_run` calls
(`(container name, command)`, newest first). -/
structure DockerSt where
  containers : List ContainerSt
  execLog : List (String × String)
deriving Repr, DecidableEq

def findContainer (ds : DockerSt) (n : String) : Option ContainerSt :=
  ds.containers.find? (fun c => c.name == n)

def logExec (ds : DockerSt) (n cmd : String) : DockerSt :=
  { ds with execLog := (n, cmd) :: ds.execLog }

/-- Replace the container(s) carrying `c.name` by `c` (docker names are
unique; the live `Container` object mutates in place). -/
def updateC (ds : DockerSt) (c : ContainerSt) : DockerSt :=
  { ds with containers := ds.containers.map (fun x => if x.name == c.name then c else x) }

def cmdApk : String := "apk add --no-cache git"
def cmdDegit : String := "npx -y degit  OMGATE23/vite-react-ts-tailwind-router-template . --force"
def cmdNpmI : String := "npm install"
def cmdPgrep : String := "pgrep -f \x27vite\x27"
def cmdDev : String := "npm run dev -- --host"
def cmdLint : String := "npx tsc --noEmit"

/-- The commands of the fixed bootstrap sequence of `create_new_container`. -/
def isBootstrapCmd (cmd : String) : Bool :=
  cmd = cmdApk || cmd = cmdDegit || cmd = cmdNpmI

/-- Exit code and output of a command executed inside a container.  The
commands are external collaborators: the model lets the dev-server probe
report the dev-server flag and the package/template commands succeed. -/
def execResult (c : ContainerSt) (cmd : String) : Nat × String :=
  if cmd = cmdPgrep then (if c.viteRunning then 0 else 1, "") else (0, "")

/-- `container.exec_run(cmd)` addressed through the session's container
name, recording the call. -/
def execRun (ds : DockerSt) (n cmd : String) : (Nat × String) × DockerSt :=
  match findContainer ds n with
  | some c => (execResult c cmd, logExec ds n cmd)
  | none => ((1, "no such container"), ds)

/-- The orchestrator's own fields: `run_id`, the resolved `project_dir`,
and the (nullable) reference to the acquired container, held by name. -/
structure Orch where
  run_id : String
  projectDir : PathC
  container : Option String
deriving Repr, DecidableEq

/-- `DockerOrchestrator.__init__` computes `project_dir = workspace_root / run_id`
(resolved here, as the guard later compares canonical forms). -/
def project_dir_of (workspaceRoot : PathC) (runId : String) : PathC :=
  resolveUnder workspaceRoot runId

/-- `create_new_container` (lines 56-77): `containers.run(...)` creates a
running container named `run_id` with a fresh published port, the three
bootstrap commands go through `_run_command_strict` (lines 103-106, raising
on a non-zero exit, which the surrounding `try` turns into an error
payload), then `_ensure_dev_server_and_return_info` (lines 108-122) probes
for vite, launches it detached if absent, and reads back the port. -/
def create_new_container (o : Orch) (ds : DockerSt) : Res × Orch × DockerSt :=
  let c0 : ContainerSt :=
    { name := o.run_id, running := true, viteRunning := false
      hostPort := 32768 + ds.containers.length, logsText := "" }
  let ds0 : DockerSt := { ds with containers := c0 :: ds.containers }
  let o0 : Orch := { o with container := some o.run_id }
  let ((code1, out1), ds1) := execRun ds0 o.run_id cmdApk
  if code1 ≠ 0 then (.err ("Command failed: " ++ cmdApk ++ "\n Output: " ++ out1), o0, ds1)
  else
    let ((code2, out2), ds2) := execRun ds1 o.run_id cmdDegit
    if code2 ≠ 0 then (.err ("Command failed: " ++ cmdDegit ++ "\n Output: " ++ out2), o0, ds2)
    else
      let ((code3, out3), ds3) := execRun ds2 o.run_id cmdNpmI
      if code3 ≠ 0 then (.err ("Command failed: " ++ cmdNpmI ++ "\n Output: " ++ out3), o0, ds3)
      else
        let ((codeP, _), ds4) := execRun ds3 o.run_id cmdPgrep
        if codeP ≠ 0 then
          let c1 : ContainerSt := { c0 with viteRunning := true }
          let ds5 := logExec (updateC ds4 c1) o.run_id cmdDev
          (.ready c1.name ("http://localhost:" ++ toString c1.hostPort), o0, ds5)
        else
          (.ready c0.name ("http://localhost:" ++ toString c0.hostPort), o0, ds4)

/-- `restart_previous_container` (lines 79-101): re-fetch the container by
name, start it if stopped, probe for vite and launch it detached when the
probe fails, read the published port, store the handle, return readiness. -/
def restart_previous_container (o : Orch) (ds : DockerSt) : Res × Orch × DockerSt :=
  match findContainer ds o.run_id with
  | none => (.err ("404 Client Error: no such container " ++ o.run_id), o, ds)
  | some c0 =>
    let c1 := if c0.running then c0 else { c0 with running := true }
    let dsA := if c0.running then ds else updateC ds c1
    let ((codeP, _), dsB) := execRun dsA o.run_id cmdPgrep
    let c2 := if codeP ≠ 0 then { c1 with viteRunning := true } else c1
    let dsC := if codeP ≠ 0 then logExec (updateC dsB c2) o.run_id cmdDev else dsB
    (.ready c2.name ("http://localhost:" ++ toString c2.hostPort),
      { o with container := some c2.name }, dsC)

/-- `get_container` (lines 42-53): a successful `containers.get(run_id)`
(the handle is truthy) leads to the restart path, `NotFound` to creation. -/
def get_container (o : Orch) (ds : DockerSt) : Res × Orch × DockerSt :=
  match findContainer ds o.run_id with
  | some _ => restart_previous_container o ds
  | none => create_new_container o ds

/-- Code-point lexicographic order on character lists: how Python
compares two strings. -/
def lexLeB : List Char → List Char → Bool
  | [], _ => true
  | _ :: _, [] => false
  | a :: as, b :: bs =>
      if a.toNat < b.toNat then true
      else if b.toNat < a.toNat then false
      else lexLeB as bs

def strLeB (a b : String) : Bool := lexLeB a.data b.data

/-- Folder-before-file then name order of
`sorted(items, key=lambda x: (x["type"] != "folder", x["name"]))`:
tuple comparison on `(bool, str)`. -/
def entryLeB (a b : FileEntry) : Bool :=
  (!(a.type != "folder") && (b.type != "folder"))
    || ((a.type != "folder") == (b.type != "folder") && strLeB a.name b.name)

def entryLe (a b : FileEntry) : Prop := entryLeB a b = true

instance : DecidableRel entryLe := fun a b => by
  unfold entryLe; infer_instance

/-- The `FileEntry` built for one child of the listed directory. -/
def entryOf (fs : FS) (proj : PathC) (p : PathC) : FileEntry :=
  { name := p.getLastD ""
    type := if isDir fs p then "folder" else "file"
    path := String.intercalate "/" (p.drop proj.length) }

/-- The immediate children `target_path.iterdir()` yields, as paths. -/
def childrenOf (fs : FS) (t : PathC) : List PathC :=
  ((fs.dirs ++ fs.files.map (fun kv => kv.1)).dedup).filter
    (fun p => p.length == t.length + 1 && segPre t p)

/-- `list_files` (lines 131-145). -/
def list_files (container : Option String) (proj : PathC) (subpath : String)
    (fs : FS) : Res × FS :=
  match container with
  | none => (noContainerErr, fs)
  | some _ =>
    match get_safe_path proj subpath with
    | .error e => (.err e, fs)
    | .ok t =>
      if !(existsPath fs t) then (.err "Path does not exist", fs)
      else if isFile fs t then (.err "NotADirectoryError", fs)
      else
        (.entries (List.insertionSort entryLe ((childrenOf fs t).map (entryOf fs proj))), fs)

/-- Python text-mode universal-newline translation: a file opened with
`open(path, "r", ...)` (default `newline=None`) has every CRLF pair and
every lone CR translated to a single LF by `f.read()` / `f.readlines()`.
(Writing with `open(path, "w", ...)` translates LF to `os.linesep`,
which on the Linux host of this system is LF itself, so writes store the
content verbatim.) -/
def univNewlines : List Char → List Char
  | [] => []
  | c :: rest =>
      if c = '\r' then
        match rest with
        | c2 :: rest2 =>
            if c2 = '\n' then '\n' :: univNewlines rest2
            else '\n' :: univNewlines (c2 :: rest2)
        | [] => ['\n']
      else c :: univNewlines rest

/-- `read_file` (lines 147-156): `open(target_path, "r", encoding="utf-8")`
followed by `f.read()`, so the stored text comes back through
universal-newline translation. -/
def read_file (container : Option String) (proj : PathC) (file_path : String)
    (fs : FS) : Res × FS :=
  match container with
  | none => (noContainerErr, fs)
  | some _ =>
    match get_safe_path proj file_path with
    | .error e => (.err e, fs)
    | .ok t =>
      match lookupFile fs t with
      | some c => (.content (String.mk (univNewlines c.data)), fs)
      | none => (.err "File not found or is a directory", fs)

def headerChars : List Char := "| Line | Code |\n|---:|:---|\n".data

/-- One Markdown row: `f"| {idx} | {safe_code} |\n"`. -/
def rowChars (idx : Nat) (line : List Char) : List Char :=
  "| ".data ++ (toString idx).data ++ " | ".data ++ escPipes (rstripAll line) ++ " |\n".data

/-- The `for idx, line in enumerate(lines, start=1)` accumulation loop. -/
def buildRows : Nat → List (List Char) → List Char
  | _, [] => []
  | idx, l :: rest => rowChars idx l ++ buildRows (idx + 1) rest

/-- `read_file_formatted` (lines 158-181): the file is opened in text
mode too, so `f.readlines()` sees the universal-newline-translated text. -/
def read_file_formatted (container : Option String) (proj : PathC)
    (file_path : String) (fs : FS) : Res × FS :=
  match container with
  | none => (noContainerErr, fs)
  | some _ =>
    match get_safe_path proj file_path with
    | .error e => (.err e, fs)
    | .ok t =>
      match lookupFile fs t with
      | some c =>
          (.content (String.mk (headerChars ++ buildRows 1 (readlines (univNewlines c.data)))), fs)
      | none => (.err "File not found or is a directory", fs)

/-- `write_file_folder` (lines 182-199).  `content if content else ""`
writes the empty string for both `None` and `""`. -/
def write_file_folder (container : Option String) (proj : PathC)
    (path ty : String) (content : Option String) (fs : FS) : Res × FS :=
  match container with
  | none => (noContainerErr, fs)
  | some _ =>
    match get_safe_path proj path with
    | .error e => (.err e, fs)
    | .ok target =>
      if ty = "folder" then
        match mkdirParents fs target with
        | .error e => (.err e, fs)
        | .ok fs1 => (.ok ("Folder " ++ path ++ " created"), fs1)
      else if ty = "file" then
        match mkdirParents fs target.dropLast with
        | .error e => (.err e, fs)
        | .ok fs1 =>
          if isDir fs1 target then (.err "IsADirectoryError", fs1)
          else (.ok ("File " ++ path ++ " created"),
            { fs1 with files :=
                (target, content.getD "") :: fs1.files.filter (fun kv => !(kv.1 == target)) })
      else (.err "Invalid type. Must be \x27file\x27 or \x27folder\x27", fs)

/-- `delete_item` (lines 202-209): the one public method WITHOUT the
`@require_container` decorator; with no acquired container the attribute
access `self.container.exec_run` on `None` raises, and nothing catches it. -/
def delete_item (container : Option String) (path : String)
    (ds : DockerSt) : Res × DockerSt :=
  match container with
  | none => (.raised "AttributeError: NoneType object has no attribute exec_run", ds)
  | some n =>
    let ((code, out), ds1) := execRun ds n ("rm -rf " ++ path)
    if code = 0 then (.ok ("Deleted " ++ path), ds1) else (.err out, ds1)

/-- One output line of grep, split on its first two colons
(`line.split(":", 2)`), kept only with at least three parts. -/
def parseLine (l : List Char) : Option SearchMatch :=
  match splitLim ':' 2 l with
  | [a, b, c] => some { file := String.mk a, line := String.mk b, content := String.mk (pyStrip c) }
  | _ => none

def parseMatches (out : String) : List SearchMatch :=
  ((splitAll '\n' (pyStrip out.data)).filter (fun l => !(l.isEmpty))).filterMap parseLine

/-- `search_content` (lines 211-230). -/
def search_content (container : Option String) (term : String)
    (ds : DockerSt) : Res × DockerSt :=
  match container with
  | none => (noContainerErr, ds)
  | some n =>
    let ((code, out), ds1) := execRun ds n ("grep -r -n -I \x22" ++ term ++ "\x22 .")
    if code ≠ 0 && out = "" then (.matches [], ds1)
    else (.matches (parseMatches out), ds1)

/-- `replace_code` (lines 232-259). -/
def replace_code (container : Option String) (proj : PathC)
    (file_path search_block replace_block : String) (fs : FS) : Res × FS :=
  match container with
  | none => (noContainerErr, fs)
  | some _ =>
    match get_safe_path proj file_path with
    | .error e => (.err e, fs)
    | .ok t =>
      match lookupFile fs t with
      | none => (.err "File not found", fs)
      | some content =>
        let count := countOcc search_block.data content.data
        if count = 0 then
          (.err "Search block not found. Ensure whitespace/indentation matches exactly.", fs)
        else if count > 1 then
          (.err ("Ambiguous match: Block found " ++ toString count
            ++ " times. Include more surrounding lines in search_block."), fs)
        else
          (.ok "Code block replaced successfully.",
            { fs with files :=
                (t, String.mk (replaceOne search_block.data replace_block.data content.data))
                  :: fs.files.filter (fun kv => !(kv.1 == t)) })

/-- Re-root one path under the move's destination when it lies in the
moved subtree. -/
def rename1 (src dest p : PathC) : PathC :=
  if segPre src p then dest ++ p.drop src.length else p

/-- `shutil.move(src, dest)` with `dest` absent: the whole subtree is
renamed. -/
def doMove (fs : FS) (src dest : PathC) : FS :=
  { dirs := fs.dirs.map (rename1 src dest)
    files := fs.files.map (fun kv => (rename1 src dest kv.1, kv.2)) }

/-- `move_item` (lines 261-283).  `shutil.move` raises when the
destination lies inside the moved directory; the decorator converts that
into an error payload. -/
def move_item (container : Option String) (proj : PathC)
    (source_path destination_path : String) (fs : FS) : Res × FS :=
  match container with
  | none => (noContainerErr, fs)
  | some _ =>
    match get_safe_path proj source_path with
    | .error e => (.err e, fs)
    | .ok src =>
      let dest := resolveUnder proj destination_path
      if !((pathChars proj).isPrefixOf (pathChars dest)) then
        (.err "Access denied: Destination outside workspace", fs)
      else if !(existsPath fs src) then (.err "Source file not found", fs)
      else if existsPath fs dest then (.err "Destination already exists", fs)
      else
        match mkdirParents fs dest.dropLast with
        | .error e => (.err e, fs)
        | .ok fs1 =>
          if isDir fs1 src && segPre src dest then
            (.err "Cannot move a directory into itself", fs1)
          else (.ok ("Moved " ++ source_path ++ " to " ++ destination_path), doMove fs1 src dest)

/-- `run_command` (lines 285-291). -/
def run_command (container : Option String) (command : String)
    (ds : DockerSt) : Res × DockerSt :=
  match container with
  | none => (noContainerErr, ds)
  | some n =>
    let ((code, out), ds1) := execRun ds n command
    (.cmd code out, ds1)

/-- `check_lint_errors` (lines 293-300). -/
def check_lint_errors (container : Option String) (ds : DockerSt) : Res × DockerSt :=
  match container with
  | none => (noContainerErr, ds)
  | some n =>
    let ((code, out), ds1) := execRun ds n cmdLint
    (.cmd code out, ds1)

/-- The docker client's `logs(tail=lines)`: the last `lines` lines. -/
def lastLines (n : Nat) (s : String) : String :=
  String.intercalate "\n" (((s.splitOn "\n").reverse.take n).reverse)

/-- `get_server_logs` (lines 302-308). -/
def get_server_logs (container : Option String) (lines : Nat)
    (ds : DockerSt) : Res × DockerSt :=
  match container with
  | none => (noContainerErr, ds)
  | some n =>
    match findContainer ds n with
    | some c => (.logsOut (lastLines lines c.logsText), ds)
    | none => (.err ("no such container " ++ n), ds)

theorem isPre_iff {α : Type} [BEq α] [LawfulBEq α] (a b : List α) :
    a.isPrefixOf b = true ↔ ∃ r, b = a ++ r := by
  rw [ List.isPrefixOf_iff_prefix]
  constructor
  · rintro ⟨r, h⟩; exact ⟨r, h.symm⟩
  · rintro ⟨r, h⟩; exact ⟨r, h.symm⟩

theorem segPre_iff (a b : PathC) : segPre a b = true ↔ ∃ r, b = a ++ r :=
  isPre_iff a b

theorem segPre_append (a r : PathC) : segPre a (a ++ r) = true := by
  rw [segPre_iff]; exact ⟨r, rfl⟩

theorem segPre_refl (a : PathC) : segPre a a = true := by
  have := segPre_append a []
  simpa using this

theorem segPre_length {a b : PathC} (h : segPre a b = true) : a.length ≤ b.length := by
  rw [segPre_iff] at h
  obtain ⟨r, rfl⟩ := h
  simp

/-- When one path contains another component-wise, the string rendering of
the container is a character prefix of the rendering of the containee. -/
theorem pathChars_mono {proj t : PathC} (h : segPre proj t = true) :
    (pathChars proj).isPrefixOf (pathChars t) = true := by
  rw [segPre_iff] at h
  obtain ⟨r, rfl⟩ := h
  rw [isPre_iff]
  by_cases hp : proj = []
  · subst hp
    cases r with
    | nil => exact ⟨[], rfl⟩
    | cons x xs =>
      refine ⟨x.data ++ ((xs.map (fun s => '/' :: s.data)).flatten), ?_⟩
      simp [pathChars]
  · cases r with
    | nil => exact ⟨[], by simp⟩
    | cons y ys =>
      refine ⟨((y :: ys).map (fun s => '/' :: s.data)).flatten, ?_⟩
      have hne : ¬ (proj ++ y :: ys).isEmpty = true := by
        simp
      simp only [pathChars, List.isEmpty_eq_true, hp, if_false, hne,
        List.map_append, List.flatten_append]
      simp [hp]

/-- C1, counterexample: with canonical `project_dir` `/ws/abc`, the
relative path `../abcd` resolves to the sibling `/ws/abcd`, which lies
outside `project_dir`, yet `_get_safe_path` accepts it, because
`"/ws/abcd".startswith("/ws/abc")` holds. -/
theorem C1_counterexample :
    get_safe_path ["ws", "abc"] "../abcd" = .ok ["ws", "abcd"]
      ∧ segPre ["ws", "abc"] ["ws", "abcd"] = false := by
  constructor
  · rfl
  · decide

/-- C1 (amended): `_get_safe_path` succeeds exactly when the string form
of the canonical resolution begins with the string form of the canonical
`project_dir` (so sibling paths sharing that textual prefix are wrongly
accepted), and for every path whose canonical resolution lies inside
`project_dir` component-wise it does succeed and returns that absolute
path. -/
theorem C1_corrected_amended (proj : PathC) (p : String) :
    (get_safe_path proj p = .ok (resolveUnder proj p)
        ↔ pyStartsWith (String.mk (pathChars (resolveUnder proj p)))
            (String.mk (pathChars proj)) = true)
      ∧ (segPre proj (resolveUnder proj p) = true →
          get_safe_path proj p = .ok (resolveUnder proj p)) := by
  constructor
  · unfold get_safe_path pyStartsWith
    by_cases h : (pathChars proj).isPrefixOf (pathChars (resolveUnder proj p)) = true
    · simp [h]
    · simp only [h, if_neg]
      simp only [Bool.not_eq_true] at h
      simp [h]
  · intro hin
    unfold get_safe_path
    simp [pathChars_mono hin]

theorem C1_witness : get_safe_path ["ws", "abc"] "x" = .ok ["ws", "abc", "x"] :=
  (C1_corrected_amended ["ws", "abc"] "x").2 (by decide)

def fsC3 : FS :=
  { dirs := [[], ["ws"], ["ws", "r1"]], files := [(["ws", "r1", "g"], "aa")] }

def fsC5 : FS :=
  { dirs := [[], ["ws"], ["ws", "r1"], ["ws", "r1", "sub"]], files := [] }

/-- C5, counterexample, two independent failures of the round trip for
inside-resolving paths.  First, the guarded path `sub` names an existing
directory: the write fails (`open` on a directory raises, the decorator
returns an error payload) and the subsequent read returns an error, not
the content.  Second, even where the write succeeds the round trip is
not exact: writing `"a\r\nb"` stores it verbatim (text-mode write is
the identity on a Linux host), but the text-mode read applies
universal-newline translation and returns `"a\nb"`. -/
theorem C5_counterexample :
    (write_file_folder (some "r1") ["ws", "r1"] "sub" "file" (some "x") fsC5
        = (.err "IsADirectoryError", fsC5)
      ∧ read_file (some "r1") ["ws", "r1"] "sub"
          (write_file_folder (some "r1") ["ws", "r1"] "sub" "file" (some "x") fsC5).2
        = (.err "File not found or is a directory", fsC5))
    ∧ ((write_file_folder (some "r1") ["ws", "r1"] "f" "file" (some "a\r\nb") fsC5).1
        = .ok "File f created"
      ∧ read_file (some "r1") ["ws", "r1"] "f"
          (write_file_folder (some "r1") ["ws", "r1"] "f" "file" (some "a\r\nb") fsC5).2
        = (.content "a\nb",
           (write_file_folder (some "r1") ["ws", "r1"] "f" "file" (some "a\r\nb") fsC5).2)
      ∧ ("a\nb" : String) ≠ "a\r\nb") := by
  refine ⟨⟨by decide, by decide⟩, by decide, by decide, by decide⟩

theorem univNewlines_eq_self {s : List Char} (h : (Char.ofNat 13) ∉ s) :
    univNewlines s = s := by
  induction s with
  | nil => rfl
  | cons c rest ih =>
    have hc : ¬ c = (Char.ofNat 13) := fun hx => h (hx ▸ List.mem_cons_self c rest)
    have hr := ih (fun hx => h (List.mem_cons_of_mem c hx))
    rw [univNewlines.eq_def]
    dsimp only
    rw [if_neg hc, hr]

/-- C5 (amended): whenever `write(path, "file", content)` itself succeeds,
the following `read(path)` returns `content` as seen through Python
text-mode universal-newline translation (every CRLF pair and every lone
CR comes back as LF); for content free of carriage returns — embedded
LF newlines and pipes included — the round trip is exact. -/
theorem C5_corrected_amended (cont : String) (proj : PathC) (path s m : String)
    (fs fs1 : FS)
    (hw : write_file_folder (some cont) proj path "file" (some s) fs = (.ok m, fs1)) :
    read_file (some cont) proj path fs1
        = (.content (String.mk (univNewlines s.data)), fs1)
      ∧ (Char.ofNat 13 ∉ s.data →
          read_file (some cont) proj path fs1 = (.content s, fs1)) := by
  have hmain : read_file (some cont) proj path fs1
      = (.content (String.mk (univNewlines s.data)), fs1) := by
    simp only [write_file_folder] at hw
    cases hsp : get_safe_path proj path with
    | error e =>
      simp only [hsp] at hw
      simp at hw
    | ok target =>
      simp only [hsp] at hw
      rw [if_neg (by decide : ¬ (("file" : String) = "folder"))] at hw
      rw [if_pos trivial] at hw
      cases hmk : mkdirParents fs target.dropLast with
      | error e =>
        simp only [hmk] at hw
        simp at hw
      | ok fsA =>
        simp only [hmk] at hw
        by_cases hd : isDir fsA target = true
        · rw [if_pos hd] at hw
          simp at hw
        · rw [if_neg hd] at hw
          simp only [Prod.mk.injEq, Res.ok.injEq] at hw
          obtain ⟨-, hfs1⟩ := hw
          simp only [read_file, hsp, lookupFile, ← hfs1]
          simp [List.lookup_cons]
  refine ⟨hmain, fun hcr => ?_⟩
  rw [hmain, univNewlines_eq_self hcr]

theorem C5_witness :
    read_file (some "r1") ["ws", "r1"] "new"
        { dirs := [[], ["ws"], ["ws", "r1"]],
          files := [(["ws", "r1", "new"], "hi"), (["ws", "r1", "g"], "aa")] }
      = (.content "hi",
         { dirs := [[], ["ws"], ["ws", "r1"]],
           files := [(["ws", "r1", "new"], "hi"), (["ws", "r1", "g"], "aa")] }) :=
  (C5_corrected_amended "r1" ["ws", "r1"] "new" "hi" "File new created" fsC3
    { dirs := [[], ["ws"], ["ws", "r1"]],
      files := [(["ws", "r1", "new"], "hi"), (["ws", "r1", "g"], "aa")] }
    (by rfl)).2 (by decide)

def fsAny : FS := { dirs := [[], ["ws"], ["ws", "r1"]], files := [] }

def dsAny : DockerSt := { containers := [], execLog := [] }

/-- C2, evaluated at the failing input: every decorated public operation
invoked with `self.container = None` returns the no-container error
payload and leaves all state untouched, but `delete_item` — the one
public operation without `@require_container` — raises an unhandled
`AttributeError` instead of returning that payload. -/
theorem C2_bug_eval :
    delete_item none "src" dsAny
        = (.raised "AttributeError: NoneType object has no attribute exec_run", dsAny)
      ∧ list_files none ["ws", "r1"] "." fsAny = (noContainerErr, fsAny)
      ∧ read_file none ["ws", "r1"] "f" fsAny = (noContainerErr, fsAny)
      ∧ read_file_formatted none ["ws", "r1"] "f" fsAny = (noContainerErr, fsAny)
      ∧ write_file_folder none ["ws", "r1"] "f" "file" (some "x") fsAny = (noContainerErr, fsAny)
      ∧ search_content none "term" dsAny = (noContainerErr, dsAny)
      ∧ replace_code none ["ws", "r1"] "f" "a" "b" fsAny = (noContainerErr, fsAny)
      ∧ move_item none ["ws", "r1"] "a" "b" fsAny = (noContainerErr, fsAny)
      ∧ run_command none "ls" dsAny = (noContainerErr, dsAny)
      ∧ check_lint_errors none dsAny = (noContainerErr, dsAny)
      ∧ get_server_logs none 50 dsAny = (noContainerErr, dsAny) :=
  ⟨rfl, rfl, rfl, rfl, rfl, rfl, rfl, rfl, rfl, rfl, rfl⟩

/-- The `enumerate(lines, start=1)` accumulation loop equals an indexed
map: the row at 0-based position `k` carries the number `i + k`. -/
theorem buildRows_eq_mapIdx :
    ∀ (ls : List (List Char)) (i : Nat),
      buildRows i ls = (ls.mapIdx (fun k l => rowChars (i + k) l)).flatten := by
  intro ls
  induction ls with
  | nil => intro i; simp [buildRows]
  | cons a rest ih =>
    intro i
    have harg : (fun (k : Nat) (l : List Char) => rowChars (i + (k + 1)) l)
        = (fun (k : Nat) (l : List Char) => rowChars ((i + 1) + k) l) := by
      funext k l
      have : i + (k + 1) = (i + 1) + k := by omega
      rw [this]
    simp only [buildRows, List.mapIdx_cons, List.flatten_cons, Nat.add_zero, harg,
      ← ih (i + 1)]

def fsC10a : FS :=
  { dirs := [[], ["ws"], ["ws", "r1"]], files := [(["ws", "r1", "f"], "a \n")] }

def fsC10b : FS :=
  { dirs := [[], ["ws"], ["ws", "r1"]], files := [(["ws", "r1", "f"], "a\n")] }

def fsC10c : FS :=
  { dirs := [[], ["ws"], ["ws", "r1"]], files := [(["ws", "r1", "f"], "x \ny|z")] }

/-- C10: the annotated rendering numbers lines starting at 1 (row at
0-based position `k` carries number `1 + k`), rstrips each line before
escaping pipes — so two files differing only in trailing whitespace
render identically — and escapes `|` as `\|` after the strip. -/
theorem C10_confirmed :
    (∀ (content : String),
      buildRows 1 (readlines content.data)
        = ((readlines content.data).mapIdx (fun k l => rowChars (1 + k) l)).flatten)
    ∧ (read_file_formatted (some "r1") ["ws", "r1"] "f" fsC10a).1
        = (read_file_formatted (some "r1") ["ws", "r1"] "f" fsC10b).1
    ∧ fsC10a ≠ fsC10b
    ∧ read_file_formatted (some "r1") ["ws", "r1"] "f" fsC10c
        = (.content "| Line | Code |\n|---:|:---|\n| 1 | x |\n| 2 | y\\|z |\n", fsC10c) := by
  refine ⟨fun content => buildRows_eq_mapIdx (readlines content.data) 1, rfl, by decide, rfl⟩


theorem find?_cons_true {α : Type} (p : α → Bool) (a : α) (l : List α)
    (h : p a = true) : List.find? p (a :: l) = some a := by
  simp [List.find?, h]

theorem find?_cons_false {α : Type} (p : α → Bool) (a : α) (l : List α)
    (h : p a = false) : List.find? p (a :: l) = List.find? p l := by
  simp [List.find?, h]

theorem findContainer_logExec (ds : DockerSt) (n cmd m : String) :
    findContainer (logExec ds n cmd) m = findContainer ds m := rfl

theorem findContainer_cons_self (cs : ContainerSt) (l : List ContainerSt)
    (e : List (String × String)) (n : String) (h : cs.name = n) :
    findContainer { containers := cs :: l, execLog := e } n = some cs := by
  unfold findContainer
  exact find?_cons_true _ _ _ (by rw [h]; exact beq_self_eq_true n)

theorem map_update_skip2 (l : List ContainerSt) (c : ContainerSt) (n : String)
    (h : ∀ x ∈ l, (x.name == n) = false) :
    l.map (fun x => if x.name == n then c else x) = l := by
  induction l with
  | nil => rfl
  | cons a t ih =>
    have ha := h a (List.mem_cons_self a t)
    have ht := ih (fun x hx => h x (List.mem_cons_of_mem a hx))
    simp only [List.map_cons, ha, Bool.false_eq_true, if_false, ht]

theorem find?_map_update (l : List ContainerSt) (c0 c2 : ContainerSt) (n : String)
    (h : List.find? (fun x => x.name == n) l = some c0) (hc : c2.name = n) :
    List.find? (fun x => x.name == n)
      (l.map (fun x => if x.name == c2.name then c2 else x)) = some c2 := by
  induction l with
  | nil => simp at h
  | cons a t ih =>
    by_cases ha : (a.name == n) = true
    · have haeq : a.name = n := eq_of_beq ha
      have h1 : (a.name == c2.name) = true := by
        rw [haeq, hc]
        exact beq_self_eq_true n
      simp only [List.map_cons, h1, if_true]
      refine find?_cons_true (fun x => x.name == n) c2 _ ?_
      show (c2.name == n) = true
      rw [hc]
      exact beq_self_eq_true n
    · have ha0 : (a.name == n) = false := by
        revert ha
        cases a.name == n <;> simp
      have h1 : (a.name == c2.name) = false := by
        rw [hc]
        exact ha0
      rw [find?_cons_false (fun x => x.name == n) a t ha0] at h
      simp only [List.map_cons, h1, Bool.false_eq_true, if_false]
      rw [find?_cons_false (fun x => x.name == n) a
        (t.map (fun x => if x.name == c2.name then c2 else x)) ha0]
      exact ih h

/-- A restart on a session whose container is running with the dev server
alive performs exactly the liveness probe and reports readiness. -/
theorem restart_on_ready (o : Orch) (ds : DockerSt) (c : ContainerSt)
    (hf : findContainer ds o.run_id = some c)
    (hr : c.running = true) (hv : c.viteRunning = true) :
    restart_previous_container o ds
      = (.ready c.name ("http://localhost:" ++ toString c.hostPort),
         { o with container := some c.name }, logExec ds o.run_id cmdPgrep) := by
  simp only [restart_previous_container, hf, hr, if_true, execRun, execResult, hv,
    eq_self_iff_true, ite_true, ne_eq, not_true_eq_false, if_false, ite_false]

/-- With no container named `run_id`, provisioning creates one, runs the
three bootstrap commands (each exiting 0 in the model), probes for the
dev server, launches it detached, and reports readiness. -/
theorem create_post (o : Orch) (ds : DockerSt)
    (h : ∀ x ∈ ds.containers, (x.name == o.run_id) = false) :
    create_new_container o ds
      = (.ready o.run_id ("http://localhost:" ++ toString (32768 + ds.containers.length)),
         { o with container := some o.run_id },
         { containers :=
             { name := o.run_id, running := true, viteRunning := true,
               hostPort := 32768 + ds.containers.length, logsText := "" } :: ds.containers,
           execLog := (o.run_id, cmdDev) :: (o.run_id, cmdPgrep) :: (o.run_id, cmdNpmI)
             :: (o.run_id, cmdDegit) :: (o.run_id, cmdApk) :: ds.execLog }) := by
  have hne1 : (cmdApk = cmdPgrep) = False := eq_false (by decide)
  have hne2 : (cmdDegit = cmdPgrep) = False := eq_false (by decide)
  have hne3 : (cmdNpmI = cmdPgrep) = False := eq_false (by decide)
  simp only [create_new_container, execRun, findContainer_cons_self, execResult,
    hne1, hne2, hne3, if_false, ite_false, eq_self_iff_true, ite_true, if_true, ne_eq,
    not_false_eq_true, not_true_eq_false, logExec, updateC, Bool.false_eq_true]
  simp only [List.map_cons, beq_self_eq_true, if_true]
  rw [if_pos (show ¬(1 : Nat) = 0 by decide)]
  rw [map_update_skip2 ds.containers
    { name := o.run_id, running := true, viteRunning := true,
      hostPort := 32768 + ds.containers.length, logsText := "" } o.run_id h]

/-- Any restart that finds the container leaves it running with the dev
server alive and findable under `run_id`, and reports its name. -/
theorem restart_post (o : Orch) (ds : DockerSt) (c0 : ContainerSt)
    (hf : findContainer ds o.run_id = some c0) :
    ∃ c2 dsC, restart_previous_container o ds
        = (.ready c2.name ("http://localhost:" ++ toString c2.hostPort),
           { o with container := some c2.name }, dsC)
      ∧ c2.running = true ∧ c2.viteRunning = true ∧ c2.name = c0.name
      ∧ findContainer dsC o.run_id = some c2 := by
  have hname : c0.name = o.run_id := by
    have hf2 := hf
    unfold findContainer at hf2
    have h1 := List.find?_some hf2
    have h2 : (c0.name == o.run_id) = true := h1
    exact eq_of_beq h2
  by_cases hr : c0.running = true
  · by_cases hv : c0.viteRunning = true
    · refine ⟨c0, logExec ds o.run_id cmdPgrep, ?_, hr, hv, rfl, ?_⟩
      · exact restart_on_ready o ds c0 hf hr hv
      · rw [findContainer_logExec]
        exact hf
    · have hv0 : c0.viteRunning = false := Bool.eq_false_iff.2 hv
      refine ⟨{ c0 with viteRunning := true },
        logExec (updateC (logExec ds o.run_id cmdPgrep) { c0 with viteRunning := true })
          o.run_id cmdDev, ?_, hr, rfl, rfl, ?_⟩
      · simp only [restart_previous_container, hf, hr, if_true, execRun,
          findContainer_logExec, execResult, hv0, eq_self_iff_true, ite_true, if_true,
          Bool.false_eq_true, if_false, ite_false, ne_eq, not_false_eq_true]
        try simp only [if_pos (show ¬(1 : Nat) = 0 from by decide)]
      · rw [findContainer_logExec]
        unfold updateC findContainer
        exact find?_map_update _ c0 _ o.run_id hf hname
  · have hr0 : c0.running = false := Bool.eq_false_iff.2 hr
    have hfu : findContainer (updateC ds { c0 with running := true }) o.run_id
        = some { c0 with running := true } := by
      unfold updateC findContainer
      exact find?_map_update _ c0 _ o.run_id hf hname
    by_cases hv : c0.viteRunning = true
    · refine ⟨{ c0 with running := true },
        logExec (updateC ds { c0 with running := true }) o.run_id cmdPgrep,
        ?_, rfl, hv, rfl, ?_⟩
      · have hfu3 := hfu
        rw [hv] at hfu3
        simp only [restart_previous_container, hf, hr0, Bool.false_eq_true, if_false,
          ite_false, execRun, findContainer_logExec, hv, hfu3, execResult,
          eq_self_iff_true, ite_true, if_true, ne_eq, not_true_eq_false]
      · rw [findContainer_logExec]
        exact hfu
    · have hv0 : c0.viteRunning = false := Bool.eq_false_iff.2 hv
      refine ⟨{ c0 with running := true, viteRunning := true },
        logExec (updateC (logExec (updateC ds { c0 with running := true })
            o.run_id cmdPgrep) { c0 with running := true, viteRunning := true })
          o.run_id cmdDev, ?_, rfl, rfl, rfl, ?_⟩
      · have hfu3 := hfu
        rw [hv0] at hfu3
        simp only [restart_previous_container, hf, hr0, Bool.false_eq_true, if_false,
          ite_false, execRun, findContainer_logExec, hv0, hfu3, execResult,
          eq_self_iff_true, ite_true, if_true, ne_eq, not_false_eq_true]
        try simp only [if_pos (show ¬(1 : Nat) = 0 from by decide)]
      · rw [findContainer_logExec]
        unfold updateC findContainer
        have hfu2 := hfu
        unfold updateC findContainer at hfu2
        exact find?_map_update _ { c0 with running := true } _ o.run_id hfu2 hname

/-- C6: when a first `acquire()` (`get_container`) returns `ReadinessInfo`,
a second call returns `ReadinessInfo` with the identical `name`, and the
only command it executes is the `pgrep` liveness probe — no bootstrap
command (`apk add`, `degit`, `npm install`) is re-run. -/
theorem C6_confirmed (o : Orch) (ds : DockerSt) (n u : String) (o1 : Orch) (ds1 : DockerSt)
    (h : get_container o ds = (.ready n u, o1, ds1)) :
    ∃ c, findContainer ds1 o1.run_id = some c ∧ c.name = n
      ∧ get_container o1 ds1
          = (.ready n ("http://localhost:" ++ toString c.hostPort),
             { o1 with container := some n }, logExec ds1 o1.run_id cmdPgrep)
      ∧ (logExec ds1 o1.run_id cmdPgrep).execLog = (o1.run_id, cmdPgrep) :: ds1.execLog
      ∧ isBootstrapCmd cmdPgrep = false := by
  unfold get_container at h
  cases hf : findContainer ds o.run_id with
  | none =>
    rw [hf] at h
    have hnone : ∀ x ∈ ds.containers, (x.name == o.run_id) = false := by
      intro x hx
      have hf2 := hf
      unfold findContainer at hf2
      have h1 := List.find?_eq_none.1 hf2 x hx
      have h2 : ¬ ((x.name == o.run_id) = true) := h1
      revert h2
      cases x.name == o.run_id <;> simp
    rw [create_post o ds hnone] at h
    simp only [Prod.mk.injEq, Res.ready.injEq] at h
    obtain ⟨⟨hn, hu⟩, hO, hD⟩ := h
    subst hn hO hD
    refine ⟨{ name := o.run_id, running := true, viteRunning := true,
              hostPort := 32768 + ds.containers.length, logsText := "" },
      findContainer_cons_self _ _ _ _ rfl, rfl, ?_, rfl, by decide⟩
    unfold get_container
    rw [findContainer_cons_self _ _ _ _ rfl]
    exact restart_on_ready _ _ _ (findContainer_cons_self _ _ _ _ rfl) rfl rfl
  | some c0 =>
    rw [hf] at h
    obtain ⟨c2, dsC, heq, hrun, hvite, hnm, hfind2⟩ := restart_post o ds c0 hf
    rw [heq] at h
    simp only [Prod.mk.injEq, Res.ready.injEq] at h
    obtain ⟨⟨hn, hu⟩, hO, hD⟩ := h
    subst hn hO hD
    refine ⟨c2, hfind2, rfl, ?_, rfl, by decide⟩
    unfold get_container
    rw [show ({ o with container := some c2.name } : Orch).run_id = o.run_id from rfl]
    rw [hfind2]
    exact restart_on_ready _ _ _ hfind2 hrun hvite

def o6 : Orch := { run_id := "r1", projectDir := ["ws", "r1"], container := none }

def ds6 : DockerSt := { containers := [], execLog := [] }

theorem C6_witness :
    ∃ c, findContainer
          { containers := [{ name := "r1", running := true, viteRunning := true,
                               hostPort := 32768, logsText := "" }],
            execLog := [("r1", cmdDev), ("r1", cmdPgrep), ("r1", cmdNpmI),
                        ("r1", cmdDegit), ("r1", cmdApk)] }
          ({ run_id := "r1", projectDir := ["ws", "r1"],
             container := some "r1" } : Orch).run_id = some c
      ∧ c.name = "r1"
      ∧ get_container { run_id := "r1", projectDir := ["ws", "r1"], container := some "r1" }
          { containers := [{ name := "r1", running := true, viteRunning := true,
                             hostPort := 32768, logsText := "" }],
            execLog := [("r1", cmdDev), ("r1", cmdPgrep), ("r1", cmdNpmI),
                        ("r1", cmdDegit), ("r1", cmdApk)] }
          = (.ready "r1" ("http://localhost:" ++ toString c.hostPort),
             { run_id := "r1", projectDir := ["ws", "r1"], container := some "r1" },
             logExec
               { containers := [{ name := "r1", running := true, viteRunning := true,
                                  hostPort := 32768, logsText := "" }],
                 execLog := [("r1", cmdDev), ("r1", cmdPgrep), ("r1", cmdNpmI),
                             ("r1", cmdDegit), ("r1", cmdApk)] } "r1" cmdPgrep)
      ∧ (logExec
            { containers := [{ name := "r1", running := true, viteRunning := true,
                               hostPort := 32768, logsText := "" }],
              execLog := [("r1", cmdDev), ("r1", cmdPgrep), ("r1", cmdNpmI),
                          ("r1", cmdDegit), ("r1", cmdApk)] } "r1" cmdPgrep).execLog
          = ("r1", cmdPgrep) :: [("r1", cmdDev), ("r1", cmdPgrep), ("r1", cmdNpmI),
                                 ("r1", cmdDegit), ("r1", cmdApk)]
      ∧ isBootstrapCmd cmdPgrep = false :=
  C6_confirmed o6 ds6 "r1" "http://localhost:32768"
    { run_id := "r1", projectDir := ["ws", "r1"], container := some "r1" }
    { containers := [{ name := "r1", running := true, viteRunning := true,
                       hostPort := 32768, logsText := "" }],
      execLog := [("r1", cmdDev), ("r1", cmdPgrep), ("r1", cmdNpmI),
                  ("r1", cmdDegit), ("r1", cmdApk)] }
    (by rfl)

theorem lexLeB_total : ∀ (a b : List Char), lexLeB a b = true ∨ lexLeB b a = true := by
  intro a
  induction a with
  | nil => intro b; exact Or.inl rfl
  | cons x xs ih =>
    intro b
    cases b with
    | nil => exact Or.inr rfl
    | cons y ys =>
      by_cases h1 : x.toNat < y.toNat
      · left; simp [lexLeB, h1]
      · by_cases h2 : y.toNat < x.toNat
        · right; simp [lexLeB, h2]
        · rcases ih ys with h | h
          · left; simp [lexLeB, h1, h2, h]
          · right; simp [lexLeB, h1, h2, h]

theorem lexLeB_trans : ∀ (a b c : List Char),
    lexLeB a b = true → lexLeB b c = true → lexLeB a c = true := by
  intro a
  induction a with
  | nil => intro b c _ _; rfl
  | cons x xs ih =>
    intro b c hab hbc
    cases b with
    | nil => simp [lexLeB] at hab
    | cons y ys =>
      cases c with
      | nil => simp [lexLeB] at hbc
      | cons z zs =>
        simp only [lexLeB] at hab hbc ⊢
        by_cases h1 : x.toNat < y.toNat
        · by_cases h2 : y.toNat < z.toNat
          · have h5 : x.toNat < z.toNat := Nat.lt_trans h1 h2
            simp [h5]
          · by_cases h3 : z.toNat < y.toNat
            · rw [if_neg h2, if_pos h3] at hbc
              exact absurd hbc (by simp)
            · have h5 : x.toNat < z.toNat := by omega
              simp [h5]
        · by_cases h4 : y.toNat < x.toNat
          · rw [if_neg h1, if_pos h4] at hab
            exact absurd hab (by simp)
          · rw [if_neg h1, if_neg h4] at hab
            by_cases h2 : y.toNat < z.toNat
            · have h5 : x.toNat < z.toNat := by omega
              simp [h5]
            · by_cases h3 : z.toNat < y.toNat
              · rw [if_neg h2, if_pos h3] at hbc
                exact absurd hbc (by simp)
              · rw [if_neg h2, if_neg h3] at hbc
                rw [if_neg (by omega : ¬ x.toNat < z.toNat),
                  if_neg (by omega : ¬ z.toNat < x.toNat)]
                exact ih ys zs hab hbc

instance : IsTotal FileEntry entryLe := ⟨by
  intro a b
  unfold entryLe entryLeB strLeB
  cases ha : (a.type != "folder") <;> cases hb : (b.type != "folder") <;> simp [ha, hb]
  · exact lexLeB_total a.name.data b.name.data
  · exact lexLeB_total a.name.data b.name.data⟩

instance : IsTrans FileEntry entryLe := ⟨by
  intro a b c hab hbc
  unfold entryLe entryLeB strLeB at hab hbc ⊢
  cases ha : (a.type != "folder") <;> cases hb : (b.type != "folder") <;>
    cases hc : (c.type != "folder") <;>
    simp only [ha, hb, hc, Bool.not_false, Bool.not_true, Bool.true_and,
      Bool.false_and, Bool.and_true, Bool.and_false, Bool.true_or, Bool.false_or,
      Bool.or_false, Bool.or_true, beq_self_eq_true, Bool.true_eq_false,
      Bool.false_eq_true] at hab hbc ⊢ <;>
    first
      | rfl
      | exact lexLeB_trans _ _ _ hab hbc
      | simp at hab
      | simp at hbc⟩

theorem contains_iff_mem (l : List PathC) (a : PathC) : l.contains a = true ↔ a ∈ l := by
  simp [List.contains]

theorem lookup_isSome_iff (l : List (PathC × String)) (p : PathC) :
    (l.lookup p).isSome = true ↔ p ∈ l.map (fun kv => kv.1) := by
  induction l with
  | nil => simp [List.lookup]
  | cons kv t ih =>
    obtain ⟨k, v⟩ := kv
    by_cases h : p = k
    · subst h
      simp [List.lookup_cons]
    · have hbeq : (p == k) = false := by simp [h]
      simp [List.lookup_cons, hbeq, ih, h]

theorem wf_anc {fs : FS} (hwf : wf fs = true) {p : PathC} (hp : p ∈ entriesOf fs)
    {n : Nat} (hn : n < p.length) : isDir fs (p.take n) = true := by
  unfold wf at hwf
  rw [Bool.and_eq_true] at hwf
  have h1 := (List.all_eq_true.1 hwf.1) p hp
  exact (List.all_eq_true.1 h1) n (List.mem_range.2 hn)

theorem existsPath_iff_mem (fs : FS) (p : PathC) :
    existsPath fs p = true ↔ p ∈ entriesOf fs := by
  unfold existsPath entriesOf isDir isFile lookupFile
  rw [Bool.or_eq_true, List.mem_append, contains_iff_mem, lookup_isSome_iff]

theorem entriesOf_doMove (fs : FS) (src dest : PathC) :
    entriesOf (doMove fs src dest) = (entriesOf fs).map (rename1 src dest) := by
  unfold entriesOf doMove
  simp only [List.map_append, List.map_map]
  rfl

theorem mkdirParents_ok {fs : FS} {p : PathC} {fs1 : FS}
    (h : mkdirParents fs p = .ok fs1) :
    fs1.files = fs.files
      ∧ fs1.dirs = ((properPrefixes p ++ [p]).filter (fun a => !(isDir fs a))) ++ fs.dirs := by
  unfold mkdirParents at h
  by_cases hc : ((properPrefixes p ++ [p]).any (fun a => isFile fs a)) = true
  · rw [if_pos hc] at h
    simp at h
  · rw [if_neg hc] at h
    simp only [Except.ok.injEq] at h
    subst h
    exact ⟨rfl, rfl⟩

theorem mem_prefixes_length {l q : PathC} (h : q ∈ properPrefixes l ++ [l]) :
    q.length ≤ l.length := by
  rw [List.mem_append] at h
  rcases h with h | h
  · unfold properPrefixes at h
    rw [List.mem_map] at h
    obtain ⟨n, hn, rfl⟩ := h
    rw [List.mem_range] at hn
    rw [List.length_take]
    omega
  · rw [List.mem_singleton] at h
    subst h
    exact Nat.le_refl _

theorem doMove_dest_mem (fs1 : FS) (src dest : PathC) (hsrc : src ∈ entriesOf fs1) :
    existsPath (doMove fs1 src dest) dest = true := by
  rw [existsPath_iff_mem, entriesOf_doMove, List.mem_map]
  refine ⟨src, hsrc, ?_⟩
  unfold rename1
  simp [segPre_refl, List.drop_length]

theorem doMove_src_absent (fs fs1 : FS) (src dest : PathC)
    (hwf : wf fs = true)
    (hex : existsPath fs src = true)
    (hdex : existsPath fs dest = false)
    (hmk : mkdirParents fs dest.dropLast = .ok fs1) :
    existsPath (doMove fs1 src dest) src = false := by
  obtain ⟨hfiles, hdirs⟩ := mkdirParents_ok hmk
  by_contra hcon
  rw [Bool.not_eq_false, existsPath_iff_mem, entriesOf_doMove, List.mem_map] at hcon
  obtain ⟨p, hp, hren⟩ := hcon
  unfold rename1 at hren
  by_cases hsp : segPre src p = true
  · rw [if_pos hsp] at hren
    obtain ⟨w, rfl⟩ := (segPre_iff src p).1 hsp
    rw [List.drop_left] at hren
    cases w with
    | nil =>
      rw [List.append_nil] at hren
      subst hren
      rw [hex] at hdex
      exact absurd hdex (by decide)
    | cons v vs =>
      have hlen : src.length = dest.length + (v :: vs).length := by
        rw [← hren, List.length_append]
      have hplen : (src ++ v :: vs).length = dest.length + 2 * (v :: vs).length := by
        rw [List.length_append]
        omega
      unfold entriesOf at hp
      rw [hdirs, hfiles, List.append_assoc, List.mem_append, List.mem_append] at hp
      rcases hp with hp | hp
      · have hle := mem_prefixes_length (List.mem_filter.1 hp).1
        have hdl : dest.dropLast.length ≤ dest.length := by
          rw [List.length_dropLast]
          omega
        have hw : 1 ≤ (v :: vs).length := by simp
        omega
      · have hpm : src ++ v :: vs ∈ entriesOf fs := by
          unfold entriesOf
          rw [List.mem_append]
          exact hp
        have hn : dest.length < (src ++ v :: vs).length := by
          have hw : 1 ≤ (v :: vs).length := by simp
          omega
        have htake : (src ++ v :: vs).take dest.length = dest := by
          rw [← hren, List.append_assoc, List.take_left]
        have hdd := wf_anc hwf hpm hn
        rw [htake] at hdd
        have : existsPath fs dest = true := by
          unfold existsPath
          rw [hdd]
          rfl
        rw [this] at hdex
        exact absurd hdex (by decide)
  · rw [if_neg hsp] at hren
    subst hren
    exact hsp (segPre_refl p)

/-- C7 (amended): with both paths guarded, `move_item` fails when the
source is missing or the destination exists (no silent overwrite); and
when the source exists, the destination is absent, the destination's
parent chain can be created (no ancestor is an existing file) and the
destination does not lie inside a moved directory, the move succeeds and
afterwards the source is absent and the destination present. -/
theorem C7_corrected_amended (cont : String) (proj : PathC) (srcS destS : String)
    (src : PathC) (fs : FS)
    (hs : get_safe_path proj srcS = .ok src)
    (hd : (pathChars proj).isPrefixOf (pathChars (resolveUnder proj destS)) = true) :
    (existsPath fs src = false →
      move_item (some cont) proj srcS destS fs = (.err "Source file not found", fs))
    ∧ (existsPath fs src = true → existsPath fs (resolveUnder proj destS) = true →
      move_item (some cont) proj srcS destS fs = (.err "Destination already exists", fs))
    ∧ (∀ fs1, existsPath fs src = true →
        existsPath fs (resolveUnder proj destS) = false →
        mkdirParents fs (resolveUnder proj destS).dropLast = .ok fs1 →
        (isDir fs1 src && segPre src (resolveUnder proj destS)) = false →
        wf fs = true →
        move_item (some cont) proj srcS destS fs
            = (.ok ("Moved " ++ srcS ++ " to " ++ destS),
               doMove fs1 src (resolveUnder proj destS))
          ∧ existsPath (doMove fs1 src (resolveUnder proj destS)) src = false
          ∧ existsPath (doMove fs1 src (resolveUnder proj destS))
              (resolveUnder proj destS) = true) := by
  refine ⟨?_, ?_, ?_⟩
  · intro hex
    simp only [move_item, hs, hd, Bool.not_true, Bool.false_eq_true, if_false, hex,
      Bool.not_false, if_true]
  · intro hex hdex
    simp only [move_item, hs, hd, Bool.not_true, Bool.false_eq_true, if_false, hex,
      hdex, if_true]
  · intro fs1 hex hdex hmk hsh hwf
    refine ⟨?_, ?_, ?_⟩
    · simp only [move_item, hs, hd, Bool.not_true, Bool.false_eq_true, if_false, hex,
        hdex, hmk, hsh, if_true]
    · exact doMove_src_absent fs fs1 src (resolveUnder proj destS) hwf hex hdex hmk
    · apply doMove_dest_mem
      obtain ⟨hfiles, hdirs⟩ := mkdirParents_ok hmk
      have hsm : src ∈ entriesOf fs := (existsPath_iff_mem fs src).1 hex
      unfold entriesOf at hsm ⊢
      rw [hdirs, hfiles, List.append_assoc, List.mem_append]
      rw [List.mem_append] at hsm
      exact Or.inr (by rw [List.mem_append]; exact hsm)

def fsC7 : FS :=
  { dirs := [[], ["ws"], ["ws", "r1"]],
    files := [(["ws", "r1", "a"], "x"), (["ws", "r1", "b"], "y")] }

/-- C7, counterexample: both paths are guarded, the source `a` exists and
the destination `b/c` does not — yet the move fails, because the
destination's parent `b` is an existing file and
`dest.parent.mkdir(parents=True, exist_ok=True)` raises. -/
theorem C7_counterexample :
    existsPath fsC7 ["ws", "r1", "a"] = true
      ∧ existsPath fsC7 ["ws", "r1", "b", "c"] = false
      ∧ move_item (some "r1") ["ws", "r1"] "a" "b/c" fsC7
          = (.err "FileExistsError", fsC7) :=
  ⟨by decide, by decide, by decide⟩

def fsC7m : FS :=
  { dirs := [[], ["ws"], ["ws", "r1"]], files := [(["ws", "r1", "a"], "x")] }

theorem C7_witness :
    move_item (some "r1") ["ws", "r1"] "a" "c" fsC7m
        = (.ok ("Moved " ++ "a" ++ " to " ++ "c"), doMove fsC7m ["ws", "r1", "a"] ["ws", "r1", "c"])
      ∧ existsPath (doMove fsC7m ["ws", "r1", "a"] ["ws", "r1", "c"]) ["ws", "r1", "a"] = false
      ∧ existsPath (doMove fsC7m ["ws", "r1", "a"] ["ws", "r1", "c"]) ["ws", "r1", "c"] = true :=
  (C7_corrected_amended "r1" ["ws", "r1"] "a" "c" ["ws", "r1", "a"] fsC7m
    (by rfl) (by decide)).2.2 fsC7m (by decide) (by decide) (by rfl) (by decide) (by decide)

theorem get_safe_path_ok {proj : PathC} {p : String} {t : PathC}
    (h : get_safe_path proj p = .ok t) : t = resolveUnder proj p := by
  unfold get_safe_path at h
  by_cases hc : (pathChars proj).isPrefixOf (pathChars (resolveUnder proj p)) = true
  · rw [if_pos hc] at h
    simp only [Except.ok.injEq] at h
    exact h.symm
  · rw [if_neg hc] at h
    simp at h

def fsC9 : FS :=
  { dirs := [[], ["ws"], ["ws", "abc"]], files := [(["ws", "abc", "f"], "x")] }

/-- C9, counterexample: with `run_id = ".."` the computed `project_dir`
resolves to the parent of `workspace_root`, not a descendant; and a
`move(".", "../abcd")` — both arguments passing the prefix-based guard —
renames the whole `project_dir` away, deleting it. -/
theorem C9_counterexample :
    (project_dir_of ["ws"] ".." = [] ∧ segPre ["ws"] (project_dir_of ["ws"] "..") = false)
      ∧ ((move_item (some "abc") ["ws", "abc"] "." "../abcd" fsC9).1
            = .ok ("Moved " ++ "." ++ " to " ++ "../abcd")
        ∧ isDir fsC9 ["ws", "abc"] = true
        ∧ isDir (move_item (some "abc") ["ws", "abc"] "." "../abcd" fsC9).2
            ["ws", "abc"] = false
        ∧ isFile (move_item (some "abc") ["ws", "abc"] "." "../abcd" fsC9).2
            ["ws", "abc", "f"] = false) := by
  refine ⟨⟨by decide, by decide⟩, by decide, by decide, by decide, by decide⟩


/-- C9 (amended): when `run_id` is a single normal path component
(nonempty, not `.` or `..`, no separator), `project_dir =
workspace_root/run_id` is a strict descendant of `workspace_root`; the
host-side mutating operations preserve the existence of `project_dir` —
`write` and `replace_block` unconditionally, `move` provided its source
does not resolve to `project_dir` itself or an ancestor of it (through
the guard's prefix flaw, a source like `.` combined with an escaping
destination can rename `project_dir` away). -/
theorem C9_corrected_amended (root : PathC) (id : String) (proj : PathC)
    (habs : isAbsStr id = false) (hsplit : splitPath id = [id])
    (hid : id ≠ "" ∧ id ≠ "." ∧ id ≠ "..") :
    (project_dir_of root id = root ++ [id]
      ∧ segPre root (project_dir_of root id) = true
      ∧ project_dir_of root id ≠ root)
    ∧ (∀ (cont path ty : String) (content : Option String) (fs : FS),
        isDir fs proj = true →
        isDir (write_file_folder (some cont) proj path ty content fs).2 proj = true)
    ∧ (∀ (cont fp sB rB : String) (fs : FS),
        isDir fs proj = true →
        isDir (replace_code (some cont) proj fp sB rB fs).2 proj = true)
    ∧ (∀ (cont srcS destS : String) (fs : FS),
        segPre (resolveUnder proj srcS) proj = false →
        isDir fs proj = true →
        isDir (move_item (some cont) proj srcS destS fs).2 proj = true) := by
  have hres : project_dir_of root id = root ++ [id] := by
    unfold project_dir_of resolveUnder
    rw [habs, hsplit]
    simp [normSegs, hid.1, hid.2.1, hid.2.2]
  refine ⟨⟨hres, ?_, ?_⟩, ?_, ?_, ?_⟩
  · rw [hres]
    exact segPre_append root [id]
  · rw [hres]
    intro hcon
    have := congrArg List.length hcon
    simp at this
  · intro cont path ty content fs hdir
    unfold write_file_folder
    cases hsp : get_safe_path proj path with
    | error e => exact hdir
    | ok target =>
      dsimp only
      by_cases hty : ty = "folder"
      · rw [if_pos hty]
        cases hmk : mkdirParents fs target with
        | error e => exact hdir
        | ok fs1 =>
          dsimp only
          obtain ⟨hf, hdirs⟩ := mkdirParents_ok hmk
          show isDir fs1 proj = true
          unfold isDir at hdir ⊢
          rw [hdirs, contains_iff_mem, List.mem_append]
          exact Or.inr ((contains_iff_mem _ _).1 hdir)
      · rw [if_neg hty]
        by_cases hty2 : ty = "file"
        · rw [if_pos hty2]
          cases hmk : mkdirParents fs target.dropLast with
          | error e => exact hdir
          | ok fs1 =>
            dsimp only
            obtain ⟨hf, hdirs⟩ := mkdirParents_ok hmk
            have hd1 : isDir fs1 proj = true := by
              unfold isDir at hdir ⊢
              rw [hdirs, contains_iff_mem, List.mem_append]
              exact Or.inr ((contains_iff_mem _ _).1 hdir)
            by_cases hdt : isDir fs1 target = true
            · rw [if_pos hdt]
              exact hd1
            · rw [if_neg hdt]
              exact hd1
        · rw [if_neg hty2]
          exact hdir
  · intro cont fp sB rB fs hdir
    unfold replace_code
    cases hsp : get_safe_path proj fp with
    | error e => exact hdir
    | ok t =>
      dsimp only
      cases hlk : lookupFile fs t with
      | none => exact hdir
      | some content =>
        dsimp only
        by_cases h0 : countOcc sB.data content.data = 0
        · rw [if_pos h0]
          exact hdir
        · rw [if_neg h0]
          by_cases h1 : countOcc sB.data content.data > 1
          · rw [if_pos h1]
            exact hdir
          · rw [if_neg h1]
            exact hdir
  · intro cont srcS destS fs hnp hdir
    unfold move_item
    cases hsp : get_safe_path proj srcS with
    | error e => exact hdir
    | ok src =>
      dsimp only
      have hsrc : src = resolveUnder proj srcS := get_safe_path_ok hsp
      subst hsrc
      by_cases hg : ((pathChars proj).isPrefixOf
          (pathChars (resolveUnder proj destS))) = true
      · have hg2 : (!((pathChars proj).isPrefixOf
            (pathChars (resolveUnder proj destS)))) = false := by
          rw [hg]
          rfl
        rw [if_neg (by rw [hg2]; decide)]
        by_cases hex : existsPath fs (resolveUnder proj srcS) = true
        · have hex2 : (!(existsPath fs (resolveUnder proj srcS))) = false := by
            rw [hex]
            rfl
          rw [if_neg (by rw [hex2]; decide)]
          by_cases hdex : existsPath fs (resolveUnder proj destS) = true
          · rw [if_pos hdex]
            exact hdir
          · rw [if_neg hdex]
            cases hmk : mkdirParents fs (resolveUnder proj destS).dropLast with
            | error e => exact hdir
            | ok fs1 =>
              dsimp only
              obtain ⟨hf, hdirs⟩ := mkdirParents_ok hmk
              have hd1 : isDir fs1 proj = true := by
                unfold isDir at hdir ⊢
                rw [hdirs, contains_iff_mem, List.mem_append]
                exact Or.inr ((contains_iff_mem _ _).1 hdir)
              by_cases hsh : (isDir fs1 (resolveUnder proj srcS)
                  && segPre (resolveUnder proj srcS) (resolveUnder proj destS)) = true
              · rw [if_pos hsh]
                exact hd1
              · rw [if_neg hsh]
                show isDir (doMove fs1 (resolveUnder proj srcS)
                  (resolveUnder proj destS)) proj = true
                unfold doMove isDir
                rw [contains_iff_mem, List.mem_map]
                refine ⟨proj, (contains_iff_mem _ _).1 hd1, ?_⟩
                unfold rename1
                have hnp2 : ¬ (segPre (resolveUnder proj srcS) proj = true) := by
                  rw [hnp]
                  decide
                rw [if_neg hnp2]
        · have hex3 : existsPath fs (resolveUnder proj srcS) = false := by
            revert hex
            cases existsPath fs (resolveUnder proj srcS) <;> simp
          have hex4 : (!(existsPath fs (resolveUnder proj srcS))) = true := by
            rw [hex3]
            rfl
          rw [if_pos hex4]
          exact hdir
      · have hg3 : ((pathChars proj).isPrefixOf
            (pathChars (resolveUnder proj destS))) = false := by
          revert hg
          cases (pathChars proj).isPrefixOf (pathChars (resolveUnder proj destS)) <;> simp
        have hg4 : (!((pathChars proj).isPrefixOf
            (pathChars (resolveUnder proj destS)))) = true := by
          rw [hg3]
          rfl
        rw [if_pos hg4]
        exact hdir

theorem C9_witness :
    (project_dir_of ["ws"] "r1" = ["ws"] ++ ["r1"]
      ∧ segPre ["ws"] (project_dir_of ["ws"] "r1") = true
      ∧ project_dir_of ["ws"] "r1" ≠ ["ws"])
    ∧ (∀ (cont path ty : String) (content : Option String) (fs : FS),
        isDir fs ["ws", "r1"] = true →
        isDir (write_file_folder (some cont) ["ws", "r1"] path ty content fs).2
          ["ws", "r1"] = true)
    ∧ (∀ (cont fp sB rB : String) (fs : FS),
        isDir fs ["ws", "r1"] = true →
        isDir (replace_code (some cont) ["ws", "r1"] fp sB rB fs).2 ["ws", "r1"] = true)
    ∧ (∀ (cont srcS destS : String) (fs : FS),
        segPre (resolveUnder ["ws", "r1"] srcS) ["ws", "r1"] = false →
        isDir fs ["ws", "r1"] = true →
        isDir (move_item (some cont) ["ws", "r1"] srcS destS fs).2 ["ws", "r1"] = true) :=
  C9_corrected_amended ["ws"] "r1" ["ws", "r1"] (by rfl) (by rfl) (by decide)
